import Mathlib

/-!
bookapi: handlers, category repository and route table

A shallow embedding of `handlers/get.go`, `handlers/category.go`,
`data/categoryrepo.go` and the route registration of `main.go`.

Conventions of the embedding

* A handler is a function from its receiver (the collaborators it holds), the
  package-level functions it calls (`time.Now`, `utils.GenerateRandomString`),
  the request and the store state to an `Outcome`: the response written, the
  collaborator calls made (in order, with their arguments), the log entries
  written, and the store state afterwards.
* A failed type assertion on a context value (`.(string)`, `.(data.User)`)
  makes the handler return `none`.
* Go `error` values are `Error` records carrying the text of `err.Error()`.
* `time.Time` is a number of nanoseconds, `time.Duration` is a signed 64-bit
  number of nanoseconds (products wrap).
-/

namespace Bookapi

/-! ## Data model -/

/-- A Go `error`: the text returned by `err.Error()`. -/
structure Error where
  text : String
deriving DecidableEq, Repr

/-- An instant, `time.Time`, in nanoseconds. -/
abbrev Time := Int

/-- A `time.Duration`: signed 64-bit nanoseconds. -/
abbrev Duration := Int

/-- Two's-complement reduction of an integer to the signed 64-bit range. -/
def wrapInt64 (x : Int) : Int := (x + 2 ^ 63) % 2 ^ 64 - 2 ^ 63

/-- The constant `time.Minute`. -/
def Minute : Duration := 60 * 1000000000

/-- The conversion `time.Duration(n)` of a Go `int`. -/
def toDuration (n : Int) : Duration := wrapInt64 n

/-- The product `a * b` of two `time.Duration` values. -/
def Duration.mul (a b : Duration) : Duration := wrapInt64 (a * b)

/-- The method `Time.Add`. -/
def Time.Add (t : Time) (d : Duration) : Time := t + d

/-- Modelled from the spec: `data.User` is declared outside the files at hand;
the fields are those of the spec's data model (`get.go` reads `Email` and
`Username`). -/
structure User where
  ID : String
  Email : String
  Username : String
  Password : String
  TokenHash : String
  IsVerified : Bool
  CreatedAt : Time
  UpdatedAt : Time
deriving DecidableEq, Repr

/-- The type tag of a verification record (`data.PassReset` is the one used in
`get.go`). -/
inductive VerificationDataType
  | EmailVerify
  | PassReset
deriving DecidableEq, Repr

/-- The record `data.VerificationData`, with the fields of the literal built in
`GeneratePassResetCode`. -/
structure VerificationData where
  Email : String
  Code : String
  Typ : VerificationDataType
  ExpiresAt : Time
deriving DecidableEq, Repr

/-- The record `data.Category`, with the fields scanned in `GetCategories`. -/
structure Category where
  ID : String
  Name : String
  Code : String
  CreatedAt : Time
  UpdatedAt : Time
deriving DecidableEq, Repr

/-- The mail kind (`service.PassReset` is the one used in `get.go`). -/
inductive MailType
  | MailConfirmation
  | PassReset
deriving DecidableEq, Repr

/-- The record `service.MailData`. -/
structure MailData where
  Username : String
  Code : String
deriving DecidableEq, Repr

/-- Modelled from the spec: `utils.Configurations` is declared outside the files
at hand. `PassResetCodeExpiration` is the field read by `get.go`; the
verification-code length is the entry of the spec's configuration surface
("verification-code length"). -/
structure Configurations where
  PassResetCodeExpiration : Int
  VerificationCodeLength : Nat
deriving DecidableEq, Repr

/-! ## Request contexts -/

/-- The context keys of package `handlers`. -/
inductive CtxKey
  | UserKey
  | UserIDKey
  | CategoryKey
  | CategoryIDKey
deriving DecidableEq, Repr

/-- A value stored in a context. -/
inductive CtxVal
  | string (s : String)
  | user (u : User)
deriving DecidableEq, Repr

/-- A `context.Context`: the background context, or one derived from a parent
by attaching a value, a deadline or a cancellation signal. -/
inductive Context
  | Background
  | WithValue (parent : Context) (key : CtxKey) (val : CtxVal)
  | WithDeadline (parent : Context) (deadline : Time)
  | WithCancel (parent : Context)
deriving DecidableEq, Repr

/-- The method `Context.Value`: the innermost value attached under `key`. -/
def Context.Value : Context → CtxKey → Option CtxVal
  | .Background, _ => none
  | .WithValue parent k v, key => if k = key then some v else parent.Value key
  | .WithDeadline parent _, key => parent.Value key
  | .WithCancel parent, key => parent.Value key

/-- The method `Context.Deadline`: the earliest deadline attached, if any. -/
def Context.Deadline : Context → Option Time
  | .Background => none
  | .WithValue parent _ _ => parent.Deadline
  | .WithDeadline parent d =>
    match parent.Deadline with
    | some d0 => some (min d0 d)
    | none => some d
  | .WithCancel parent => parent.Deadline

/-- Whether the context carries a cancellation signal (a non-nil `Done`
channel). -/
def Context.cancellable : Context → Bool
  | .Background => false
  | .WithValue parent _ _ => parent.cancellable
  | .WithDeadline _ _ => true
  | .WithCancel _ => true

/-- An inbound `*http.Request`: method, path, context and the route variables
of `mux.Vars`. -/
structure Request where
  Method : String
  Path : String
  ctx : Context
  vars : List (String × String)
deriving DecidableEq, Repr

/-- The lookup `mux.Vars(r)[name]`: the empty string when the variable is not
set. -/
def Request.Var (r : Request) (name : String) : String :=
  match r.vars.lookup name with
  | some v => v
  | none => ""

/-! ## Responses -/

/-- A Go slice: `nil`, or a (possibly empty) allocated sequence. -/
inductive Slice (α : Type)
  | nil
  | of (elems : List α)
deriving DecidableEq, Repr

/-- The elements ranged over by `for i := range s`. -/
def Slice.toList {α : Type} : Slice α → List α
  | .nil => []
  | .of xs => xs

/-- The builtin `append(s, x)`: the result is never `nil`. -/
def Slice.append {α : Type} (s : Slice α) (x : α) : Slice α :=
  .of (s.toList ++ [x])

/-- The builtin `len(s)`. -/
def Slice.len {α : Type} (s : Slice α) : Nat := s.toList.length

/-- The record `CategoryUpdate` of `category.go`. -/
structure CategoryUpdate where
  Id : String
  Name : String
  Code : String
deriving DecidableEq, Repr

/-- The `Data interface{}` member of a `GenericResponse`, as used in `get.go`. -/
inductive ResponseData
  | null
  | TokenResponse (AccessToken : String)
  | CategoryUpdate (c : CategoryUpdate)
  | CategoryList (xs : Slice CategoryUpdate)
deriving DecidableEq, Repr

/-- The record `GenericResponse` (a `Data` left out of the literal is `nil`). -/
structure GenericResponse where
  Status : Bool
  Message : String
  Data : ResponseData
deriving DecidableEq, Repr

/-- What a handler wrote to its `http.ResponseWriter`: the headers set, the
status passed to `WriteHeader` and the value passed to `data.ToJSON`. -/
structure Response where
  header : List (String × String)
  status : Nat
  body : GenericResponse
deriving DecidableEq, Repr

/-- The constant `http.StatusOK`. -/
def StatusOK : Nat := 200

/-- The constant `http.StatusInternalServerError`. -/
def StatusInternalServerError : Nat := 500

/-- The access token carried by a response body, if any. -/
def GenericResponse.token (b : GenericResponse) : Option String :=
  match b.Data with
  | .TokenResponse t => some t
  | _ => none

/-! ## Logging and collaborator calls -/

/-- Log levels of `hclog.Logger` used by the handlers. -/
inductive Level
  | Debug
  | Info
  | Error
deriving DecidableEq, Repr

/-- One log call: level, message and the text of the remaining arguments. -/
structure LogEntry where
  level : Level
  msg : String
  args : List String
deriving DecidableEq, Repr

/-- A call made by a handler to a collaborator or to a package-level
function, with its arguments. `μ` is the type of mail requests built by
`NewMail`. -/
inductive Call (μ : Type)
  | GenerateAccessToken (user : User)
  | GetUserByID (ctx : Context) (userID : String)
  | GenerateRandomString (n : Nat)
  | NewMail (sender : String) (rcpts : List String) (subject : String)
      (mailType : MailType) (mailData : MailData)
  | SendMail (mailReq : μ)
  | Now
  | StoreVerificationData (ctx : Context) (v : VerificationData)
  | GetCategories (ctx : Context)
  | GetCategoryByID (ctx : Context) (categoryID : String)
  | GetCategoryByCode (ctx : Context) (code : String)
deriving DecidableEq, Repr

/-- The context argument of a store-touching call (`none` for the calls that
do not touch the store). -/
def Call.storeCtx {μ : Type} : Call μ → Option Context
  | .GetUserByID ctx _ => some ctx
  | .StoreVerificationData ctx _ => some ctx
  | .GetCategories ctx => some ctx
  | .GetCategoryByID ctx _ => some ctx
  | .GetCategoryByCode ctx _ => some ctx
  | _ => none

/-- The record passed to `StoreVerificationData` (`none` for other calls). -/
def Call.stored {μ : Type} : Call μ → Option VerificationData
  | .StoreVerificationData _ v => some v
  | _ => none

/-- The length passed to `utils.GenerateRandomString` (`none` for other
calls). -/
def Call.randomLength {μ : Type} : Call μ → Option Nat
  | .GenerateRandomString n => some n
  | _ => none

/-- The result of running a handler. -/
structure Outcome (μ σ : Type) where
  resp : Response
  calls : List (Call μ)
  log : List LogEntry
  store : σ

/-! ## Collaborators -/

/-- The methods of the user repository called in `get.go`, over a store state
`σ`. -/
structure Repository (σ : Type) where
  GetUserByID : Context → String → σ → Except Error User
  StoreVerificationData : Context → VerificationData → σ → Option Error × σ

/-- The method of `service.Authentication` called in `get.go`. -/
structure Authentication where
  GenerateAccessToken : User → Except Error String

/-- The methods of the mail service called in `get.go`. -/
structure MailService (μ : Type) where
  NewMail : String → List String → String → MailType → MailData → μ
  SendMail : μ → Option Error

/-- The package-level functions called by the handlers: `time.Now` and
`utils.GenerateRandomString`. -/
structure Runtime where
  Now : Time
  GenerateRandomString : Nat → String

/-- The receiver `AuthHandler`. -/
structure AuthHandler (μ σ : Type) where
  configs : Configurations
  repo : Repository σ
  authService : Authentication
  mailService : MailService μ

/-- The header set first by every handler of `get.go`. -/
def jsonHeader : List (String × String) := [("Content-Type", "application/json")]

/-! ## `handlers/get.go`: the authentication handlers -/

/-- The handler `AuthHandler.RefreshToken`. -/
def AuthHandler.RefreshToken {μ σ : Type} (ah : AuthHandler μ σ) (r : Request) (s : σ) :
    Option (Outcome μ σ) :=
  match r.ctx.Value .UserKey with
  | some (.user user) =>
    match ah.authService.GenerateAccessToken user with
    | .error err =>
      some {
        resp := {
          header := jsonHeader
          status := StatusInternalServerError
          body := {
            Status := false
            Message := "Unable to generate access token.Please try again later"
            Data := .null } }
        calls := [.GenerateAccessToken user]
        log := [⟨.Error, "unable to generate access token", ["error", err.text]⟩]
        store := s }
    | .ok accessToken =>
      some {
        resp := {
          header := jsonHeader
          status := StatusOK
          body := {
            Status := true
            Message := "Successfully generated new access token"
            Data := .TokenResponse accessToken } }
        calls := [.GenerateAccessToken user]
        log := []
        store := s }
  | _ => none

/-- The handler `AuthHandler.Greet`. -/
def AuthHandler.Greet {μ σ : Type} (_ah : AuthHandler μ σ) (r : Request) (s : σ) :
    Option (Outcome μ σ) :=
  match r.ctx.Value .UserIDKey with
  | some (.string userID) =>
    some {
      resp := {
        header := jsonHeader
        status := StatusOK
        body := { Status := true, Message := "hello," ++ userID, Data := .null } }
      calls := []
      log := []
      store := s }
  | _ => none

/-- The body written on each failing path of `GeneratePassResetCode`. -/
def passResetFailure : Response :=
  { header := jsonHeader
    status := StatusInternalServerError
    body := {
      Status := false
      Message := "Unable to send password reset code. Please try again later"
      Data := .null } }

/-- The handler `AuthHandler.GeneratePassResetCode`. -/
def AuthHandler.GeneratePassResetCode {μ σ : Type} (ah : AuthHandler μ σ) (rt : Runtime)
    (r : Request) (s : σ) : Option (Outcome μ σ) :=
  match r.ctx.Value .UserIDKey with
  | some (.string userID) =>
    match ah.repo.GetUserByID .Background userID s with
    | .error err =>
      some {
        resp := passResetFailure
        calls := [.GetUserByID .Background userID]
        log := [⟨.Error, "unable to get user to generate secret code for password reset",
          ["error", err.text]⟩]
        store := s }
    | .ok user =>
      let sender := "ibrodex@gmail.com"
      let rcpts := [user.Email]
      let subject := "Password Reset for Bookite"
      let mailType := MailType.PassReset
      let mailData : MailData :=
        { Username := user.Username, Code := rt.GenerateRandomString 8 }
      let mailReq := ah.mailService.NewMail sender rcpts subject mailType mailData
      let calls₁ : List (Call μ) :=
        [.GetUserByID .Background userID, .GenerateRandomString 8,
         .NewMail sender rcpts subject mailType mailData, .SendMail mailReq]
      match ah.mailService.SendMail mailReq with
      | some err =>
        some {
          resp := passResetFailure
          calls := calls₁
          log := [⟨.Error, "unable to send mail", ["error", err.text]⟩]
          store := s }
      | none =>
        let verificationData : VerificationData :=
          { Email := user.Email
            Code := mailData.Code
            Typ := .PassReset
            ExpiresAt := Time.Add rt.Now
              (Duration.mul Minute (toDuration ah.configs.PassResetCodeExpiration)) }
        let calls₂ := calls₁ ++ [.Now, .StoreVerificationData .Background verificationData]
        match ah.repo.StoreVerificationData .Background verificationData s with
        | (some err, s') =>
          some {
            resp := passResetFailure
            calls := calls₂
            log := [⟨.Error, "unable to store password reset verification data",
              ["error", err.text]⟩]
            store := s' }
        | (none, s') =>
          some {
            resp := {
              header := jsonHeader
              status := StatusOK
              body := {
                Status := true
                Message := "Please check your mail for password reset code"
                Data := .null } }
            calls := calls₂
            log := [⟨.Debug, "successfully mailed password reset code", []⟩]
            store := s' }
  | _ => none

/-! ## `handlers/get.go`: the category handlers -/

/-- The methods of `data.ICategoryRepository` called in `get.go`, over a store
state `σ`. -/
structure ICategoryRepository (σ : Type) where
  GetCategories : Context → σ → Except Error (Slice Category)
  GetCategoryByID : Context → String → σ → Except Error Category
  GetCategoryByCode : Context → String → σ → Except Error Category

/-- The receiver `CategoryHandler` of `category.go`. -/
structure CategoryHandler (σ : Type) where
  configs : Configurations
  repo : ICategoryRepository σ
  authService : Authentication

/-- The body of the loop of `GetCategories`: one element is converted and
appended to `catList`. -/
def appendCategory (catList : Slice CategoryUpdate) (c : Category) : Slice CategoryUpdate :=
  catList.append { Id := c.ID, Name := c.Name, Code := c.Code }

/-- The handler `CategoryHandler.GetCategories`. -/
def CategoryHandler.GetCategories {μ σ : Type} (cat : CategoryHandler σ) (_r : Request) (s : σ) :
    Option (Outcome μ σ) :=
  match cat.repo.GetCategories .Background s with
  | .error err =>
    some {
      resp := {
        header := jsonHeader
        status := StatusInternalServerError
        body := {
          Status := false
          Message := "unable to get categories. Please try again later"
          Data := .null } }
      calls := [.GetCategories .Background]
      log := [⟨.Error, "unable to get categories", ["error", err.text]⟩]
      store := s }
  | .ok categoryList =>
    let catList := categoryList.toList.foldl appendCategory (.of [])
    some {
      resp := {
        header := jsonHeader
        status := StatusOK
        body := { Status := true, Message := "Success", Data := .CategoryList catList } }
      calls := [.GetCategories .Background]
      log := []
      store := s }

/-- The body written on the failing path of `GetCategoryById` and
`GetCategoryByCode`. -/
def categoryFailure : Response :=
  { header := jsonHeader
    status := StatusInternalServerError
    body := {
      Status := false
      Message := "unable to get category. Please try again later"
      Data := .null } }

/-- The body written on the successful path of `GetCategoryById` and
`GetCategoryByCode`. -/
def categorySuccess (category : Category) : Response :=
  { header := jsonHeader
    status := StatusOK
    body := {
      Status := true
      Message := "Success"
      Data := .CategoryUpdate
        { Id := category.ID, Code := category.Code, Name := category.Name } } }

/-- The handler `CategoryHandler.GetCategoryById`. -/
def CategoryHandler.GetCategoryById {μ σ : Type} (cat : CategoryHandler σ) (r : Request) (s : σ) :
    Option (Outcome μ σ) :=
  let categoryID := r.Var "id"
  let log₁ : List LogEntry := [⟨.Debug, "querying for category with Code", [categoryID]⟩]
  match cat.repo.GetCategoryByID .Background categoryID s with
  | .error err =>
    some {
      resp := categoryFailure
      calls := [.GetCategoryByID .Background categoryID]
      log := log₁ ++ [⟨.Error, "unable to get category", ["error", err.text]⟩]
      store := s }
  | .ok category =>
    some {
      resp := categorySuccess category
      calls := [.GetCategoryByID .Background categoryID]
      log := log₁
      store := s }

/-- The handler `CategoryHandler.GetCategoryByCode`. -/
def CategoryHandler.GetCategoryByCode {μ σ : Type} (cat : CategoryHandler σ) (r : Request)
    (s : σ) : Option (Outcome μ σ) :=
  let categoryID := r.Var "code"
  match cat.repo.GetCategoryByCode .Background categoryID s with
  | .error err =>
    some {
      resp := categoryFailure
      calls := [.GetCategoryByCode .Background categoryID]
      log := [⟨.Error, "unable to get category", ["error", err.text]⟩]
      store := s }
  | .ok category =>
    some {
      resp := categorySuccess category
      calls := [.GetCategoryByCode .Background categoryID]
      log := []
      store := s }

/-! ## `data/categoryrepo.go` -/

/-- A value bound to a placeholder of a statement. -/
inductive SqlValue
  | text (s : String)
  | timestamp (t : Time)
deriving DecidableEq, Repr

/-- One call of `db.ExecContext(ctx, query, args...)`. -/
structure ExecCall where
  ctx : Context
  query : String
  args : List SqlValue
deriving DecidableEq, Repr

/-- The methods of `sqlx.DB` called by the category repository, over a
database state `τ`. A query yields, for every row of its result, what
`cur.Scan` makes of it. -/
structure DB (τ : Type) where
  ExecContext : Context → String → List SqlValue → τ → Option Error × τ
  QueryContext : Context → String → τ → Except Error (List (Except Error Category))

/-- The receiver `CategoryRepository`. -/
structure CategoryRepository (τ : Type) where
  db : DB τ

/-- The result of a repository method that writes: the struct behind the
pointer argument afterwards, the error returned, the statement executed and
the database state afterwards. -/
structure WriteResult (τ : Type) where
  category : Category
  err : Option Error
  exec : ExecCall
  db : τ

/-- The statement text of `Create`. -/
def createQuery : String :=
  "insert into category (id, name, code, createdat, updatedat) values ($1, $2, $3, $4, $5)"

/-- The statement text of `UpdateCategory`. -/
def updateQuery : String :=
  "update category set name = $1,code = $2, updatedat = $3 where id = $4"

/-- The method `CategoryRepository.Create`; `newV4` is the string of
`uuid.NewV4()`, `now₁` and `now₂` are the two readings of `time.Now()`. -/
def CategoryRepository.Create {τ : Type} (repo : CategoryRepository τ) (newV4 : String)
    (now₁ now₂ : Time) (ctx : Context) (category : Category) (d : τ) : WriteResult τ :=
  let category := { category with ID := newV4 }
  let category := { category with CreatedAt := now₁ }
  let category := { category with UpdatedAt := now₂ }
  let query := createQuery
  let args : List SqlValue :=
    [.text category.ID, .text category.Name, .text category.Code,
     .timestamp category.CreatedAt, .timestamp category.UpdatedAt]
  let res := repo.db.ExecContext ctx query args d
  { category := category, err := res.1, exec := ⟨ctx, query, args⟩, db := res.2 }

/-- The method `CategoryRepository.UpdateCategory`; `now` is the reading of
`time.Now()`. -/
def CategoryRepository.UpdateCategory {τ : Type} (repo : CategoryRepository τ) (now : Time)
    (ctx : Context) (category : Category) (d : τ) : WriteResult τ :=
  let category := { category with UpdatedAt := now }
  let query := updateQuery
  let args : List SqlValue :=
    [.text category.Name, .text category.Code, .timestamp category.UpdatedAt,
     .text category.ID]
  let res := repo.db.ExecContext ctx query args d
  { category := category, err := res.1, exec := ⟨ctx, query, args⟩, db := res.2 }

/-- The cursor loop of `CategoryRepository.GetCategories`: rows are appended
in order; the first failing `Scan` returns its error. -/
def scanLoop : List (Except Error Category) → Slice Category → Except Error (Slice Category)
  | [], categories => .ok categories
  | .error err :: _, _ => .error err
  | .ok category :: rest, categories => scanLoop rest (categories.append category)

/-- The method `CategoryRepository.GetCategories`. -/
def CategoryRepository.GetCategories {τ : Type} (repo : CategoryRepository τ) (ctx : Context)
    (d : τ) : Except Error (Slice Category) :=
  match repo.db.QueryContext ctx "select * from category" d with
  | .error err => .error err
  | .ok cur => scanLoop cur .nil

/-- The category table: its rows in storage order. -/
abbrev CategoryTable := List Category

/-- The reading of the two statements of the category repository on the
category table (`id` is the primary key): the insert adds the row of its five
arguments, the update rewrites `name`, `code` and `updatedat` of the rows whose
`id` is its fourth argument. -/
def execCategory (_ctx : Context) (query : String) (args : List SqlValue) (t : CategoryTable) :
    Option Error × CategoryTable :=
  if query = createQuery then
    match args with
    | [.text id, .text name, .text code, .timestamp createdat, .timestamp updatedat] =>
      if t.any (fun row => row.ID == id) then
        (some ⟨"duplicate key value violates unique constraint"⟩, t)
      else
        (none, t ++ [⟨id, name, code, createdat, updatedat⟩])
    | _ => (some ⟨"bad arguments"⟩, t)
  else if query = updateQuery then
    match args with
    | [.text name, .text code, .timestamp updatedat, .text id] =>
      (none, t.map (fun row =>
        if row.ID = id then { row with Name := name, Code := code, UpdatedAt := updatedat }
        else row))
    | _ => (some ⟨"bad arguments"⟩, t)
  else
    (some ⟨"unsupported statement"⟩, t)

/-- A database whose state is the category table. -/
def tableDB : DB CategoryTable :=
  { ExecContext := execCategory
    QueryContext := fun _ _ t => .ok (t.map .ok) }

/-! ## `main.go`: the route table -/

/-- The handler functions registered in `main`. -/
inductive Handler
  | VerifyMail
  | VerifyPasswordReset
  | Signup
  | Login
  | CreateCategory
  | RefreshToken
  | Greet
  | GeneratePassResetCode
  | GetCategories
  | GetCategoryById
  | GetCategoryByCode
  | UpdateUsername
  | ResetPassword
  | UpdateCategory
  | Swagger
deriving DecidableEq, Repr

/-- The middleware functions registered in `main`. -/
inductive Middleware
  | MiddlewareValidateVerificationData
  | MiddlewareValidateUser
  | MiddlewareValidateAccessToken
  | MiddlewareValidateRefreshToken
deriving DecidableEq, Repr

/-- The constant `http.MethodGet`. -/
def MethodGet : String := "GET"

/-- The constant `http.MethodPost`. -/
def MethodPost : String := "POST"

/-- The constant `http.MethodPut`. -/
def MethodPut : String := "PUT"

/-- A registration `HandleFunc(path, handler)` on a subrouter. -/
structure Route where
  path : String
  handler : Handler
deriving DecidableEq, Repr

/-- What a route of the top-level router leads to: a handler set on the route
itself, or a subrouter with its routes and the middlewares given to `Use`. -/
inductive Target
  | handler (h : Handler)
  | subrouter (routes : List Route) (middlewares : List Middleware)
deriving DecidableEq, Repr

/-- A route of the top-level router `sm`: its `PathPrefix` template and its
`Methods` list, when it has them, and its target. -/
structure TopRoute where
  pathPfx : Option String
  methods : Option (List String)
  target : Target
deriving DecidableEq, Repr

/-- The routes registered on `sm` by `main`, in registration order. -/
def routeTable : List TopRoute :=
  [ -- postR
    { pathPfx := none, methods := some [MethodPost]
      target := .subrouter
        [⟨"/signup", .Signup⟩, ⟨"/login", .Login⟩]
        [.MiddlewareValidateUser] },
    -- mailR
    { pathPfx := some "/verify", methods := some [MethodPost]
      target := .subrouter
        [⟨"/mail", .VerifyMail⟩, ⟨"/password-reset", .VerifyPasswordReset⟩]
        [.MiddlewareValidateVerificationData] },
    -- catR
    { pathPfx := none, methods := some [MethodPost]
      target := .subrouter
        [⟨"/category", .CreateCategory⟩]
        [.MiddlewareValidateAccessToken] },
    -- refToken
    { pathPfx := some "/refresh-token", methods := none
      target := .subrouter
        [⟨"", .RefreshToken⟩]
        [.MiddlewareValidateRefreshToken] },
    -- getR
    { pathPfx := none, methods := some [MethodGet]
      target := .subrouter
        [⟨"/greet", .Greet⟩, ⟨"/get-password-reset-code", .GeneratePassResetCode⟩]
        [.MiddlewareValidateAccessToken] },
    -- getCat
    { pathPfx := none, methods := some [MethodGet]
      target := .subrouter
        [⟨"/category", .GetCategories⟩, ⟨"/category/{id}", .GetCategoryById⟩,
         ⟨"/category/code/{code}", .GetCategoryByCode⟩]
        [.MiddlewareValidateAccessToken] },
    -- putR
    { pathPfx := none, methods := some [MethodPut]
      target := .subrouter
        [⟨"/update-username", .UpdateUsername⟩, ⟨"/reset-password", .ResetPassword⟩,
         ⟨"/category", .UpdateCategory⟩]
        [.MiddlewareValidateAccessToken] },
    -- swagger
    { pathPfx := some "/swagger/", methods := none
      target := .handler .Swagger } ]

/-- The handlers a top-level route can lead to. -/
def TopRoute.handlers (t : TopRoute) : List Handler :=
  match t.target with
  | .handler h => [h]
  | .subrouter routes _ => routes.map Route.handler

/-- The middlewares that wrap the handlers of a top-level route (`sm` itself
has none). -/
def TopRoute.middlewares (t : TopRoute) : List Middleware :=
  match t.target with
  | .handler _ => []
  | .subrouter _ mws => mws

/-- A piece of a path template: a literal character or a variable `{name}`. -/
inductive Part
  | lit (c : Char)
  | var
deriving DecidableEq, Repr

/-- Reads a path template; the flag tells whether a variable name is being
skipped. -/
def parseTpl : Bool → List Char → List Part
  | _, [] => []
  | false, c :: cs =>
    if c = Char.ofNat 123 then .var :: parseTpl true cs else .lit c :: parseTpl false cs
  | true, c :: cs =>
    if c = Char.ofNat 125 then parseTpl false cs else parseTpl true cs

/-- Matches a path against a template: a literal matches itself, a variable
matches one or more characters other than a slash. An anchored match must use
up the whole path (`Path`), an unanchored one only a beginning of it
(`PathPrefix`). -/
def matchParts (anchored : Bool) : List Part → List Char → Bool
  | [], [] => true
  | [], _ :: _ => !anchored
  | .lit _ :: _, [] => false
  | .lit c :: ps, d :: p => c == d && matchParts anchored ps p
  | .var :: _, [] => false
  | .var :: ps, d :: p =>
    d != '/' && (matchParts anchored ps p || matchParts anchored (.var :: ps) p)

/-- The function `strings.TrimRight(s, "/")`. -/
def trimRightSlash (s : List Char) : List Char :=
  (s.reverse.dropWhile (fun c => c == '/')).reverse

/-- The template of a route of a subrouter: the path given to `HandleFunc`
after the subrouter's prefix template without its trailing slashes. -/
def Route.tpl (pfx : Option String) (rt : Route) : List Char :=
  match pfx with
  | some t => trimRightSlash t.toList ++ rt.path.toList
  | none => rt.path.toList

/-- The `Methods` matcher of a top-level route. -/
def TopRoute.methodOk (t : TopRoute) (method : String) : Bool :=
  match t.methods with
  | some ms => ms.contains method
  | none => true

/-- The `PathPrefix` matcher of a top-level route. -/
def TopRoute.pathOk (t : TopRoute) (path : String) : Bool :=
  match t.pathPfx with
  | some tpl => matchParts false (parseTpl false tpl.toList) path.toList
  | none => true

/-- The target of a top-level route on a path: the handler of the route, or
the first route of the subrouter whose template matches the whole path, with
the subrouter's middlewares. -/
def TopRoute.inner (t : TopRoute) (path : String) : Option (Handler × List Middleware) :=
  match t.target with
  | .handler h => some (h, [])
  | .subrouter routes mws =>
    match routes.find?
      (fun rt => matchParts true (parseTpl false (rt.tpl t.pathPfx)) path.toList) with
    | some rt => some (rt.handler, mws)
    | none => none

/-- Whether and how a top-level route matches a request. -/
def TopRoute.Match (t : TopRoute) (method path : String) : Option (Handler × List Middleware) :=
  if t.methodOk method && t.pathOk path then t.inner path else none

/-- First-match dispatch in registration order: the handler reached and the
middlewares run before it, or `none` when no route matches. -/
def dispatch (table : List TopRoute) (method path : String) :
    Option (Handler × List Middleware) :=
  table.findSome? (fun t => t.Match method path)

/-- The handlers named as protected by the access-token middleware. -/
def protectedHandlers : List Handler :=
  [.Greet, .GeneratePassResetCode, .CreateCategory, .GetCategories, .GetCategoryById,
   .GetCategoryByCode, .UpdateCategory, .UpdateUsername, .ResetPassword]

/-! ## Sample collaborators

An in-memory store, a mail service that records nothing and always delivers,
and the handlers built from them; they serve as concrete inputs. -/

/-- A mail request as a plain record of the arguments of `NewMail`. -/
structure Mail where
  sender : String
  rcpts : List String
  subject : String
  mailType : MailType
  mailData : MailData
deriving DecidableEq, Repr

/-- An in-memory store: the user rows and the verification rows. -/
structure MemStore where
  users : List User
  verifications : List VerificationData
deriving DecidableEq, Repr

/-- A repository over the in-memory store: lookup by `ID`, and a write that
replaces the verification row of the same `Email`. -/
def memRepo : Repository MemStore :=
  { GetUserByID := fun _ userID s =>
      match s.users.find? (fun u => u.ID == userID) with
      | some u => .ok u
      | none => .error ⟨"sql: no rows in result set"⟩
    StoreVerificationData := fun _ v s =>
      (none, { s with
        verifications := v :: s.verifications.filter (fun w => w.Email != v.Email) }) }

/-- A repository whose write always fails and leaves the store as it is. -/
def failingStoreRepo : Repository MemStore :=
  { GetUserByID := memRepo.GetUserByID
    StoreVerificationData := fun _ _ s => (some ⟨"pq: connection refused"⟩, s) }

/-- A mail service that delivers every mail. -/
def okMail : MailService Mail :=
  { NewMail := Mail.mk, SendMail := fun _ => none }

/-- A mail service that delivers no mail. -/
def downMail : MailService Mail :=
  { NewMail := Mail.mk, SendMail := fun _ => some ⟨"sendgrid: 503"⟩ }

/-- A token service that signs by prefixing the user ID. -/
def okAuth : Authentication :=
  { GenerateAccessToken := fun u => .ok ("jwt." ++ u.ID) }

/-- A token service without its signing key. -/
def downAuth : Authentication :=
  { GenerateAccessToken := fun _ => .error ⟨"unable to parse private key"⟩ }

/-- A sample configuration: codes expire after 15 minutes, the configured
code length is 6. -/
def sampleConfigs : Configurations :=
  { PassResetCodeExpiration := 15, VerificationCodeLength := 6 }

/-- A sample user. -/
def alice : User :=
  { ID := "u1", Email := "a@x.com", Username := "alice", Password := "h", TokenHash := "t",
    IsVerified := true, CreatedAt := 0, UpdatedAt := 0 }

/-- A sample store holding `alice` and no verification row. -/
def sampleStore : MemStore := { users := [alice], verifications := [] }

/-- A sample handler whose collaborators all succeed. -/
def sampleHandler : AuthHandler Mail MemStore :=
  { configs := sampleConfigs, repo := memRepo, authService := okAuth, mailService := okMail }

/-- A sample handler whose token service fails. -/
def noKeyHandler : AuthHandler Mail MemStore :=
  { configs := sampleConfigs, repo := memRepo, authService := downAuth, mailService := okMail }

/-- A sample handler whose mail service fails. -/
def noMailHandler : AuthHandler Mail MemStore :=
  { configs := sampleConfigs, repo := memRepo, authService := okAuth, mailService := downMail }

/-- A sample handler whose verification write fails. -/
def noWriteHandler : AuthHandler Mail MemStore :=
  { configs := sampleConfigs, repo := failingStoreRepo, authService := okAuth,
    mailService := okMail }

/-- A sample handler whose configured expiration, 153722868 minutes, is the
first one whose product with `time.Minute` leaves the 64-bit range. -/
def wrapHandler : AuthHandler Mail MemStore :=
  { configs := { PassResetCodeExpiration := 153722868, VerificationCodeLength := 6 }
    repo := memRepo, authService := okAuth, mailService := okMail }

/-- A sample runtime: the clock reads 1000, the random string is fixed. -/
def sampleRuntime : Runtime :=
  { Now := 1000, GenerateRandomString := fun _ => "AB12CD34" }

/-- A request context as left by the access-token middleware for `alice`,
with a deadline. -/
def aliceCtx : Context :=
  .WithDeadline (.WithValue (.WithValue .Background .UserIDKey (.string "u1")) .UserKey
    (.user alice)) 5000

/-- A request context naming a user that is not in the sample store. -/
def ghostCtx : Context := .WithValue .Background .UserIDKey (.string "u9")

/-- A sample request carrying `aliceCtx`. -/
def aliceRequest (method path : String) : Request :=
  { Method := method, Path := path, ctx := aliceCtx, vars := [] }

/-- A category repository over the category table, built on
`CategoryRepository.GetCategories` and lookups by `id` and by `code`. -/
def tableCategoryRepo : ICategoryRepository CategoryTable :=
  { GetCategories := fun ctx t => (CategoryRepository.mk tableDB).GetCategories ctx t
    GetCategoryByID := fun _ categoryID t =>
      match t.find? (fun c => c.ID == categoryID) with
      | some c => .ok c
      | none => .error ⟨"sql: no rows in result set"⟩
    GetCategoryByCode := fun _ code t =>
      match t.find? (fun c => c.Code == code) with
      | some c => .ok c
      | none => .error ⟨"sql: no rows in result set"⟩ }

/-- A sample category handler over the category table. -/
def sampleCategoryHandler : CategoryHandler CategoryTable :=
  { configs := sampleConfigs, repo := tableCategoryRepo, authService := okAuth }

/-- A sample category table of two rows. -/
def sampleTable : CategoryTable :=
  [⟨"c1", "Fiction", "FIC", 10, 20⟩, ⟨"c2", "Science", "SCI", 30, 40⟩]

/-! ## Theorems -/

/-- C1. `RefreshToken`: with a user in the request context, a token `t` from
`GenerateAccessToken` gives status 200, `Status` true and `Data.AccessToken = t`;
an error from `GenerateAccessToken` gives status 500, `Status` false and no
token in the body. -/
theorem RefreshToken_contract {μ σ : Type} (ah : AuthHandler μ σ) (r : Request) (s : σ)
    (user : User) (hctx : r.ctx.Value .UserKey = some (.user user)) :
    (∀ t, ah.authService.GenerateAccessToken user = .ok t →
      ∃ out, ah.RefreshToken r s = some out ∧ out.resp.status = 200 ∧
        out.resp.body.Status = true ∧ out.resp.body.Data = .TokenResponse t ∧
        out.resp.body.token = some t) ∧
    (∀ e, ah.authService.GenerateAccessToken user = .error e →
      ∃ out, ah.RefreshToken r s = some out ∧ out.resp.status = 500 ∧
        out.resp.body.Status = false ∧ out.resp.body.Data = .null ∧
        out.resp.body.token = none) := by
  constructor
  · intro t ht
    simp [AuthHandler.RefreshToken, hctx, ht, StatusOK, GenericResponse.token]
  · intro e he
    simp [AuthHandler.RefreshToken, hctx, he, StatusInternalServerError, GenericResponse.token]

/-- Witness of C1 on the sample handlers: a token for `alice`, and a failing
token service. -/
theorem RefreshToken_contract_witness :
    aliceCtx.Value .UserKey = some (.user alice) ∧
    (∃ out, sampleHandler.RefreshToken (aliceRequest "GET" "/refresh-token") sampleStore
        = some out ∧ out.resp.status = 200 ∧ out.resp.body.Status = true ∧
        out.resp.body.Data = .TokenResponse "jwt.u1" ∧ out.resp.body.token = some "jwt.u1") ∧
    (∃ out, noKeyHandler.RefreshToken (aliceRequest "GET" "/refresh-token") sampleStore
        = some out ∧ out.resp.status = 500 ∧ out.resp.body.Status = false ∧
        out.resp.body.Data = .null ∧ out.resp.body.token = none) :=
  ⟨by decide,
   (RefreshToken_contract sampleHandler (aliceRequest "GET" "/refresh-token") sampleStore alice
      (by decide)).1 "jwt.u1" rfl,
   (RefreshToken_contract noKeyHandler (aliceRequest "GET" "/refresh-token") sampleStore alice
      (by decide)).2 ⟨"unable to parse private key"⟩ rfl⟩

/-- The products `time.Minute * time.Duration(n)` that do not wrap. -/
theorem minutes_exact (n : Int) (hlo : -153722867 ≤ n) (hhi : n ≤ 153722867) :
    Duration.mul Minute (toDuration n) = n * 60000000000 := by
  unfold Duration.mul toDuration wrapInt64 Minute
  have h1 : (n + 2 ^ 63) % 2 ^ 64 - 2 ^ 63 = n := by omega
  rw [h1]
  have h2 : (60 * 1000000000 * n + 2 ^ 63) % 2 ^ 64 = 60 * 1000000000 * n + 2 ^ 63 := by
    apply Int.emod_eq_of_lt
    · nlinarith
    · nlinarith
  rw [h2]
  ring

/-- Inversion of `GeneratePassResetCode`: a run that returns went down one of
the four paths of the handler. -/
theorem GeneratePassResetCode_inv {μ σ : Type} (ah : AuthHandler μ σ) (rt : Runtime)
    (r : Request) (s : σ) (out : Outcome μ σ)
    (hrun : ah.GeneratePassResetCode rt r s = some out) :
    ∃ userID, r.ctx.Value .UserIDKey = some (.string userID) ∧
      ((∃ e, ah.repo.GetUserByID .Background userID s = .error e ∧
          out.resp = passResetFailure ∧ out.store = s ∧
          out.calls = [.GetUserByID .Background userID]) ∨
       (∃ user, ah.repo.GetUserByID .Background userID s = .ok user ∧
          ∃ data : MailData, data = ⟨user.Username, rt.GenerateRandomString 8⟩ ∧
          ∃ req, req = ah.mailService.NewMail "ibrodex@gmail.com" [user.Email]
              "Password Reset for Bookite" .PassReset data ∧
          ((∃ e, ah.mailService.SendMail req = some e ∧
              out.resp = passResetFailure ∧ out.store = s ∧
              out.calls = [.GetUserByID .Background userID, .GenerateRandomString 8,
                .NewMail "ibrodex@gmail.com" [user.Email] "Password Reset for Bookite"
                  .PassReset data, .SendMail req]) ∨
           (ah.mailService.SendMail req = none ∧
              ∃ v : VerificationData,
                v = ⟨user.Email, data.Code, .PassReset, Time.Add rt.Now
                  (Duration.mul Minute (toDuration ah.configs.PassResetCodeExpiration))⟩ ∧
                out.calls = [.GetUserByID .Background userID, .GenerateRandomString 8,
                  .NewMail "ibrodex@gmail.com" [user.Email] "Password Reset for Bookite"
                    .PassReset data, .SendMail req, .Now,
                  .StoreVerificationData .Background v] ∧
                out.store = (ah.repo.StoreVerificationData .Background v s).2 ∧
                ((∃ e, (ah.repo.StoreVerificationData .Background v s).1 = some e ∧
                    out.resp = passResetFailure) ∨
                 ((ah.repo.StoreVerificationData .Background v s).1 = none ∧
                    out.resp.status = 200 ∧ out.resp.body.Status = true)))))) := by
  unfold AuthHandler.GeneratePassResetCode at hrun
  split at hrun
  · rename_i userID hctx
    refine ⟨userID, hctx, ?_⟩
    split at hrun
    · rename_i err huser
      left
      cases hrun
      exact ⟨err, huser, rfl, rfl, rfl⟩
    · rename_i user huser
      right
      refine ⟨user, huser, _, rfl, _, rfl, ?_⟩
      dsimp only at hrun
      split at hrun
      · rename_i err hsend
        left
        cases hrun
        exact ⟨err, hsend, rfl, rfl, rfl⟩
      · rename_i hsend
        right
        refine ⟨hsend, _, rfl, ?_⟩
        split at hrun
        · rename_i err s' hst
          cases hrun
          refine ⟨by simp, by simp [hst], ?_⟩
          left
          exact ⟨err, by simp [hst], rfl⟩
        · rename_i s' hst
          cases hrun
          refine ⟨by simp, by simp [hst], ?_⟩
          right
          exact ⟨by simp [hst], rfl, rfl⟩
  · cases hrun

/-- C2 as stated fails: with `PassResetCodeExpiration = 153722868` the product
`time.Minute * time.Duration(153722868)` leaves the 64-bit range and wraps; the
run for `alice` answers 200 and stores one record, but its `ExpiresAt` is not
the clock reading 1000 plus 153722868 minutes: it lies before the clock
reading. -/
theorem expiry_wraps_for_large_expiration :
    (wrapHandler.GeneratePassResetCode sampleRuntime
        (aliceRequest "GET" "/get-password-reset-code") sampleStore).map
      (fun out => (out.resp.status, out.calls.filterMap Call.stored, out.store.verifications))
      = some (200,
          [⟨"a@x.com", "AB12CD34", .PassReset, -9223371993709550616⟩],
          [⟨"a@x.com", "AB12CD34", .PassReset, -9223371993709550616⟩]) ∧
    wrapHandler.configs.PassResetCodeExpiration = 153722868 ∧
    sampleRuntime.Now = 1000 ∧
    (-9223371993709550616 : Int) ≠ 1000 + 153722868 * 60000000000 ∧
    (-9223371993709550616 : Int) < 1000 := by
  refine ⟨?_, rfl, rfl, by decide, by decide⟩
  decide

/-- C2 (amended). `GeneratePassResetCode`: a run that answers 200 has called
`StoreVerificationData` exactly once, as its last call, that call succeeded
and the store afterwards is the one it left; the record has the email of the
user that `GetUserByID` returned for the user id of the context, type
`PassReset`, the code of the mail that was built for that email and sent, and
`ExpiresAt = time.Now().Add(time.Minute * time.Duration(PassResetCodeExpiration))`
in 64-bit `time.Duration` arithmetic, which is the current time plus
`PassResetCodeExpiration` minutes when that number lies between -153722867
and 153722867, where the product does not wrap. -/
theorem GeneratePassResetCode_ok_stores {μ σ : Type} (ah : AuthHandler μ σ) (rt : Runtime)
    (r : Request) (s : σ) (out : Outcome μ σ)
    (hrun : ah.GeneratePassResetCode rt r s = some out) (h200 : out.resp.status = 200) :
    ∃ userID user v data,
      r.ctx.Value .UserIDKey = some (.string userID) ∧
      ah.repo.GetUserByID .Background userID s = .ok user ∧
      out.calls.filterMap Call.stored = [v] ∧
      out.calls = [.GetUserByID .Background userID, .GenerateRandomString 8,
        .NewMail "ibrodex@gmail.com" [user.Email] "Password Reset for Bookite" .PassReset data,
        .SendMail (ah.mailService.NewMail "ibrodex@gmail.com" [user.Email]
          "Password Reset for Bookite" .PassReset data),
        .Now, .StoreVerificationData .Background v] ∧
      (ah.repo.StoreVerificationData .Background v s).1 = none ∧
      out.store = (ah.repo.StoreVerificationData .Background v s).2 ∧
      v.Email = user.Email ∧
      v.Typ = .PassReset ∧
      Call.NewMail "ibrodex@gmail.com" [user.Email] "Password Reset for Bookite" .PassReset data
        ∈ out.calls ∧
      Call.SendMail (ah.mailService.NewMail "ibrodex@gmail.com" [user.Email]
        "Password Reset for Bookite" .PassReset data) ∈ out.calls ∧
      ah.mailService.SendMail (ah.mailService.NewMail "ibrodex@gmail.com" [user.Email]
        "Password Reset for Bookite" .PassReset data) = none ∧
      data.Code = rt.GenerateRandomString 8 ∧
      v.Code = data.Code ∧
      v.ExpiresAt = Time.Add rt.Now
        (Duration.mul Minute (toDuration ah.configs.PassResetCodeExpiration)) ∧
      (-153722867 ≤ ah.configs.PassResetCodeExpiration →
        ah.configs.PassResetCodeExpiration ≤ 153722867 →
        v.ExpiresAt = rt.Now + ah.configs.PassResetCodeExpiration * 60000000000) := by
  obtain ⟨userID, hctx, hcase⟩ := GeneratePassResetCode_inv ah rt r s out hrun
  rcases hcase with ⟨e, _, hresp, _, _⟩ | ⟨user, huser, data, hdata, req, hreq, hcase⟩
  · rw [hresp] at h200
    exact absurd h200 (by decide)
  · rcases hcase with ⟨e, _, hresp, _, _⟩ | ⟨hsend, v, hv, hcalls, hstore, hcase⟩
    · rw [hresp] at h200
      exact absurd h200 (by decide)
    · rcases hcase with ⟨e, _, hresp⟩ | ⟨hnone, _, _⟩
      · rw [hresp] at h200
        exact absurd h200 (by decide)
      · subst hreq
        refine ⟨userID, user, v, data, hctx, huser, ?_, hcalls, hnone, hstore, ?_, ?_, ?_, ?_,
          hsend, ?_, ?_, ?_, ?_⟩
        · rw [hcalls]; rfl
        · rw [hv]
        · rw [hv]
        · rw [hcalls]; simp
        · rw [hcalls]; simp
        · rw [hdata]
        · rw [hv]
        · rw [hv]
        · intro hlo hhi
          rw [hv]
          show Time.Add rt.Now _ = _
          rw [minutes_exact _ hlo hhi]
          rfl

/-- Witness of C2 (amended) on the sample handler: the run for `alice` answers
200, and the store afterwards holds the one record written, expiring 15
minutes after the clock reading 1000. -/
theorem GeneratePassResetCode_ok_stores_witness :
    ∃ out, sampleHandler.GeneratePassResetCode sampleRuntime
        (aliceRequest "GET" "/get-password-reset-code") sampleStore = some out ∧
      out.resp.status = 200 ∧
      out.store = ⟨[alice], [⟨"a@x.com", "AB12CD34", .PassReset, 900000001000⟩]⟩ ∧
      ∃ userID user v data,
        aliceCtx.Value .UserIDKey = some (.string userID) ∧
        memRepo.GetUserByID .Background userID sampleStore = .ok user ∧
        out.calls.filterMap Call.stored = [v] ∧
        out.calls = [.GetUserByID .Background userID, .GenerateRandomString 8,
          .NewMail "ibrodex@gmail.com" [user.Email] "Password Reset for Bookite" .PassReset
            data,
          .SendMail (okMail.NewMail "ibrodex@gmail.com" [user.Email]
            "Password Reset for Bookite" .PassReset data),
          .Now, .StoreVerificationData .Background v] ∧
        (memRepo.StoreVerificationData .Background v sampleStore).1 = none ∧
        out.store = (memRepo.StoreVerificationData .Background v sampleStore).2 ∧
        v.Email = user.Email ∧
        v.Typ = .PassReset ∧
        Call.NewMail "ibrodex@gmail.com" [user.Email] "Password Reset for Bookite" .PassReset
          data ∈ out.calls ∧
        Call.SendMail (okMail.NewMail "ibrodex@gmail.com" [user.Email]
          "Password Reset for Bookite" .PassReset data) ∈ out.calls ∧
        okMail.SendMail (okMail.NewMail "ibrodex@gmail.com" [user.Email]
          "Password Reset for Bookite" .PassReset data) = none ∧
        data.Code = "AB12CD34" ∧
        v.Code = data.Code ∧
        v.ExpiresAt = Time.Add 1000 (Duration.mul Minute (toDuration 15)) ∧
        (-153722867 ≤ (15 : Int) → (15 : Int) ≤ 153722867 →
          v.ExpiresAt = 1000 + 15 * 60000000000) :=
  ⟨_, rfl, rfl, by decide,
    GeneratePassResetCode_ok_stores sampleHandler sampleRuntime
      (aliceRequest "GET" "/get-password-reset-code") sampleStore _ rfl rfl⟩

/-- The run of `GeneratePassResetCode` when `GetUserByID` fails. -/
theorem GeneratePassResetCode_user_error {μ σ : Type} (ah : AuthHandler μ σ) (rt : Runtime)
    (r : Request) (s : σ) (userID : String) (e : Error)
    (hctx : r.ctx.Value .UserIDKey = some (.string userID))
    (huser : ah.repo.GetUserByID .Background userID s = .error e) :
    ∃ out, ah.GeneratePassResetCode rt r s = some out ∧ out.resp = passResetFailure ∧
      out.calls = [.GetUserByID .Background userID] ∧ out.store = s := by
  simp [AuthHandler.GeneratePassResetCode, hctx, huser]

/-- The run of `GeneratePassResetCode` when `SendMail` fails. -/
theorem GeneratePassResetCode_mail_error {μ σ : Type} (ah : AuthHandler μ σ) (rt : Runtime)
    (r : Request) (s : σ) (userID : String) (user : User) (e : Error)
    (hctx : r.ctx.Value .UserIDKey = some (.string userID))
    (huser : ah.repo.GetUserByID .Background userID s = .ok user)
    (hsend : ah.mailService.SendMail (ah.mailService.NewMail "ibrodex@gmail.com" [user.Email]
      "Password Reset for Bookite" .PassReset ⟨user.Username, rt.GenerateRandomString 8⟩)
      = some e) :
    ∃ out, ah.GeneratePassResetCode rt r s = some out ∧ out.resp = passResetFailure ∧
      out.calls = [.GetUserByID .Background userID, .GenerateRandomString 8,
        .NewMail "ibrodex@gmail.com" [user.Email] "Password Reset for Bookite" .PassReset
          ⟨user.Username, rt.GenerateRandomString 8⟩,
        .SendMail (ah.mailService.NewMail "ibrodex@gmail.com" [user.Email]
          "Password Reset for Bookite" .PassReset ⟨user.Username, rt.GenerateRandomString 8⟩)] ∧
      out.store = s := by
  simp [AuthHandler.GeneratePassResetCode, hctx, huser, hsend]

/-- The run of `GeneratePassResetCode` when `StoreVerificationData` fails. -/
theorem GeneratePassResetCode_store_error {μ σ : Type} (ah : AuthHandler μ σ) (rt : Runtime)
    (r : Request) (s : σ) (userID : String) (user : User) (e : Error)
    (hctx : r.ctx.Value .UserIDKey = some (.string userID))
    (huser : ah.repo.GetUserByID .Background userID s = .ok user)
    (hsend : ah.mailService.SendMail (ah.mailService.NewMail "ibrodex@gmail.com" [user.Email]
      "Password Reset for Bookite" .PassReset ⟨user.Username, rt.GenerateRandomString 8⟩)
      = none)
    (hstore : (ah.repo.StoreVerificationData .Background
      ⟨user.Email, rt.GenerateRandomString 8, .PassReset, Time.Add rt.Now
        (Duration.mul Minute (toDuration ah.configs.PassResetCodeExpiration))⟩ s).1 = some e) :
    ∃ out, ah.GeneratePassResetCode rt r s = some out ∧ out.resp = passResetFailure ∧
      out.calls = [.GetUserByID .Background userID, .GenerateRandomString 8,
        .NewMail "ibrodex@gmail.com" [user.Email] "Password Reset for Bookite" .PassReset
          ⟨user.Username, rt.GenerateRandomString 8⟩,
        .SendMail (ah.mailService.NewMail "ibrodex@gmail.com" [user.Email]
          "Password Reset for Bookite" .PassReset ⟨user.Username, rt.GenerateRandomString 8⟩),
        .Now,
        .StoreVerificationData .Background
          ⟨user.Email, rt.GenerateRandomString 8, .PassReset, Time.Add rt.Now
            (Duration.mul Minute (toDuration ah.configs.PassResetCodeExpiration))⟩] := by
  unfold AuthHandler.GeneratePassResetCode
  simp only [hctx, huser, hsend]
  split
  · rename_i err s' hst
    exact ⟨_, rfl, rfl, rfl⟩
  · rename_i s' hst
    rw [hst] at hstore
    cases hstore

/-- C3. Every collaborator error in `RefreshToken` and `GeneratePassResetCode`
is answered with status 500 and a body fixed in advance (`Status` false, a
constant message, no data): the response is the same constant whatever the
error value is, so the error text is not part of it. -/
theorem collaborator_errors_generic {μ σ : Type} (ah : AuthHandler μ σ) (rt : Runtime)
    (r : Request) (s : σ) :
    (∀ user e, r.ctx.Value .UserKey = some (.user user) →
      ah.authService.GenerateAccessToken user = .error e →
      (ah.RefreshToken r s).map Outcome.resp = some
        ⟨[("Content-Type", "application/json")], 500,
          ⟨false, "Unable to generate access token.Please try again later", .null⟩⟩) ∧
    (∀ userID, r.ctx.Value .UserIDKey = some (.string userID) →
      (∀ e, ah.repo.GetUserByID .Background userID s = .error e →
        (ah.GeneratePassResetCode rt r s).map Outcome.resp = some
          ⟨[("Content-Type", "application/json")], 500,
            ⟨false, "Unable to send password reset code. Please try again later", .null⟩⟩) ∧
      (∀ user, ah.repo.GetUserByID .Background userID s = .ok user →
        (∀ e, ah.mailService.SendMail (ah.mailService.NewMail "ibrodex@gmail.com"
            [user.Email] "Password Reset for Bookite" .PassReset
            ⟨user.Username, rt.GenerateRandomString 8⟩) = some e →
          (ah.GeneratePassResetCode rt r s).map Outcome.resp = some
            ⟨[("Content-Type", "application/json")], 500,
              ⟨false, "Unable to send password reset code. Please try again later",
                .null⟩⟩) ∧
        (ah.mailService.SendMail (ah.mailService.NewMail "ibrodex@gmail.com"
            [user.Email] "Password Reset for Bookite" .PassReset
            ⟨user.Username, rt.GenerateRandomString 8⟩) = none →
          ∀ e, (ah.repo.StoreVerificationData .Background
            ⟨user.Email, rt.GenerateRandomString 8, .PassReset, Time.Add rt.Now
              (Duration.mul Minute (toDuration ah.configs.PassResetCodeExpiration))⟩ s).1
              = some e →
          (ah.GeneratePassResetCode rt r s).map Outcome.resp = some
            ⟨[("Content-Type", "application/json")], 500,
              ⟨false, "Unable to send password reset code. Please try again later",
                .null⟩⟩))) := by
  refine ⟨?_, ?_⟩
  · intro user e hctx he
    simp [AuthHandler.RefreshToken, hctx, he, StatusInternalServerError, jsonHeader]
  · intro userID hctx
    refine ⟨?_, ?_⟩
    · intro e he
      obtain ⟨out, hout, hresp, _⟩ := GeneratePassResetCode_user_error ah rt r s userID e hctx he
      rw [hout, Option.map_some', hresp]
      rfl
    · intro user huser
      refine ⟨?_, ?_⟩
      · intro e he
        obtain ⟨out, hout, hresp, _⟩ :=
          GeneratePassResetCode_mail_error ah rt r s userID user e hctx huser he
        rw [hout, Option.map_some', hresp]
        rfl
      · intro hsend e he
        obtain ⟨out, hout, hresp, _⟩ :=
          GeneratePassResetCode_store_error ah rt r s userID user e hctx huser hsend he
        rw [hout, Option.map_some', hresp]
        rfl

/-- Witness of C3 on the sample handlers: a failing token service, an unknown
user, a failing mail service and a failing store write all give the constant
response. -/
theorem collaborator_errors_generic_witness :
    (noKeyHandler.RefreshToken (aliceRequest "GET" "/refresh-token") sampleStore).map
        Outcome.resp = some
      ⟨[("Content-Type", "application/json")], 500,
        ⟨false, "Unable to generate access token.Please try again later", .null⟩⟩ ∧
    (sampleHandler.GeneratePassResetCode sampleRuntime
        ⟨"GET", "/get-password-reset-code", ghostCtx, []⟩ sampleStore).map Outcome.resp = some
      ⟨[("Content-Type", "application/json")], 500,
        ⟨false, "Unable to send password reset code. Please try again later", .null⟩⟩ ∧
    (noMailHandler.GeneratePassResetCode sampleRuntime
        (aliceRequest "GET" "/get-password-reset-code") sampleStore).map Outcome.resp = some
      ⟨[("Content-Type", "application/json")], 500,
        ⟨false, "Unable to send password reset code. Please try again later", .null⟩⟩ ∧
    (noWriteHandler.GeneratePassResetCode sampleRuntime
        (aliceRequest "GET" "/get-password-reset-code") sampleStore).map Outcome.resp = some
      ⟨[("Content-Type", "application/json")], 500,
        ⟨false, "Unable to send password reset code. Please try again later", .null⟩⟩ :=
  ⟨(collaborator_errors_generic noKeyHandler sampleRuntime
      (aliceRequest "GET" "/refresh-token") sampleStore).1 alice
      ⟨"unable to parse private key"⟩ rfl rfl,
   ((collaborator_errors_generic sampleHandler sampleRuntime
      ⟨"GET", "/get-password-reset-code", ghostCtx, []⟩ sampleStore).2 "u9" rfl).1
      ⟨"sql: no rows in result set"⟩ rfl,
   (((collaborator_errors_generic noMailHandler sampleRuntime
      (aliceRequest "GET" "/get-password-reset-code") sampleStore).2 "u1" rfl).2 alice rfl).1
      ⟨"sendgrid: 503"⟩ rfl,
   (((collaborator_errors_generic noWriteHandler sampleRuntime
      (aliceRequest "GET" "/get-password-reset-code") sampleStore).2 "u1" rfl).2 alice rfl).2
      rfl ⟨"pq: connection refused"⟩ rfl⟩

/-- C10. `GeneratePassResetCode` stores no code it failed to deliver: when
`GetUserByID` or `SendMail` fails, the handler answers, makes no
`StoreVerificationData` call and leaves the store as it was; in every run a
`StoreVerificationData` call is the last call, made after a `SendMail` that
succeeded; and when the store call fails, the answer is 500 although the mail
with the code has been sent. -/
theorem no_store_without_delivery {μ σ : Type} (ah : AuthHandler μ σ) (rt : Runtime)
    (r : Request) (s : σ) (userID : String)
    (hctx : r.ctx.Value .UserIDKey = some (.string userID)) :
    (∀ e, ah.repo.GetUserByID .Background userID s = .error e →
      ∃ out, ah.GeneratePassResetCode rt r s = some out ∧
        out.calls.filterMap Call.stored = [] ∧ out.store = s) ∧
    (∀ user e, ah.repo.GetUserByID .Background userID s = .ok user →
      ah.mailService.SendMail (ah.mailService.NewMail "ibrodex@gmail.com" [user.Email]
        "Password Reset for Bookite" .PassReset ⟨user.Username, rt.GenerateRandomString 8⟩)
        = some e →
      ∃ out, ah.GeneratePassResetCode rt r s = some out ∧
        out.calls.filterMap Call.stored = [] ∧ out.store = s) ∧
    (∀ out, ah.GeneratePassResetCode rt r s = some out →
      ∀ ctx v, Call.StoreVerificationData ctx v ∈ out.calls →
      ∃ before mailReq, ah.mailService.SendMail mailReq = none ∧
        out.calls = before ++ [.SendMail mailReq, .Now, .StoreVerificationData ctx v] ∧
        before.filterMap Call.stored = []) ∧
    (∀ user e, ah.repo.GetUserByID .Background userID s = .ok user →
      ah.mailService.SendMail (ah.mailService.NewMail "ibrodex@gmail.com" [user.Email]
        "Password Reset for Bookite" .PassReset ⟨user.Username, rt.GenerateRandomString 8⟩)
        = none →
      (ah.repo.StoreVerificationData .Background
        ⟨user.Email, rt.GenerateRandomString 8, .PassReset, Time.Add rt.Now
          (Duration.mul Minute (toDuration ah.configs.PassResetCodeExpiration))⟩ s).1
          = some e →
      ∃ out, ah.GeneratePassResetCode rt r s = some out ∧ out.resp.status = 500 ∧
        out.resp.body.Status = false ∧
        Call.SendMail (ah.mailService.NewMail "ibrodex@gmail.com" [user.Email]
          "Password Reset for Bookite" .PassReset ⟨user.Username, rt.GenerateRandomString 8⟩)
          ∈ out.calls) := by
  refine ⟨?_, ?_, ?_, ?_⟩
  · intro e he
    obtain ⟨out, hout, _, hcalls, hstore⟩ :=
      GeneratePassResetCode_user_error ah rt r s userID e hctx he
    exact ⟨out, hout, by rw [hcalls]; rfl, hstore⟩
  · intro user e huser he
    obtain ⟨out, hout, _, hcalls, hstore⟩ :=
      GeneratePassResetCode_mail_error ah rt r s userID user e hctx huser he
    exact ⟨out, hout, by rw [hcalls]; rfl, hstore⟩
  · intro out hrun ctx v hmem
    obtain ⟨uid, _, hcase⟩ := GeneratePassResetCode_inv ah rt r s out hrun
    rcases hcase with ⟨e, _, _, _, hcalls⟩ | ⟨user, huser, data, hdata, req, hreq, hcase⟩
    · rw [hcalls] at hmem
      simp at hmem
    · rcases hcase with ⟨e, _, _, _, hcalls⟩ | ⟨hsend, w, hw, hcalls, _, _⟩
      · rw [hcalls] at hmem
        simp at hmem
      · rw [hcalls] at hmem
        simp at hmem
        obtain ⟨hc, hv⟩ := hmem
        subst hc hv
        exact ⟨[.GetUserByID .Background uid, .GenerateRandomString 8,
          .NewMail "ibrodex@gmail.com" [user.Email] "Password Reset for Bookite" .PassReset
            data], req, hsend, by rw [hcalls]; rfl, rfl⟩
  · intro user e huser hsend he
    obtain ⟨out, hout, hresp, hcalls⟩ :=
      GeneratePassResetCode_store_error ah rt r s userID user e hctx huser hsend he
    refine ⟨out, hout, by rw [hresp]; rfl, by rw [hresp]; rfl, ?_⟩
    rw [hcalls]
    simp

/-- Witness of C10 on a handler whose store write fails: the run for `alice`
answers 500 after the mail was sent, and the store is left as it was. -/
theorem no_store_without_delivery_witness :
    aliceCtx.Value .UserIDKey = some (.string "u1") ∧
    ∃ out, noWriteHandler.GeneratePassResetCode sampleRuntime
        (aliceRequest "GET" "/get-password-reset-code") sampleStore = some out ∧
      out.resp.status = 500 ∧ out.resp.body.Status = false ∧
      Call.SendMail (okMail.NewMail "ibrodex@gmail.com" ["a@x.com"]
        "Password Reset for Bookite" .PassReset ⟨"alice", "AB12CD34"⟩) ∈ out.calls :=
  ⟨rfl, (no_store_without_delivery noWriteHandler sampleRuntime
    (aliceRequest "GET" "/get-password-reset-code") sampleStore "u1" rfl).2.2.2 alice
    ⟨"pq: connection refused"⟩ rfl rfl rfl⟩

/-- C7 (amended). The length that `GeneratePassResetCode` passes to
`utils.GenerateRandomString` is the constant 8 in every run and for every
configuration: the calls of a run ask for no random string (the user lookup
failed) or for exactly one, of length 8. -/
theorem code_length_is_eight {μ σ : Type} (ah : AuthHandler μ σ) (rt : Runtime)
    (r : Request) (s : σ) (out : Outcome μ σ)
    (hrun : ah.GeneratePassResetCode rt r s = some out) :
    (out.calls.filterMap Call.randomLength = [] ∨
      out.calls.filterMap Call.randomLength = [8]) ∧
    (∀ userID user, r.ctx.Value .UserIDKey = some (.string userID) →
      ah.repo.GetUserByID .Background userID s = .ok user →
      out.calls.filterMap Call.randomLength = [8]) := by
  obtain ⟨uid, hctx, hcase⟩ := GeneratePassResetCode_inv ah rt r s out hrun
  rcases hcase with ⟨e, he, _, _, hcalls⟩ | ⟨user, huser, data, hdata, req, hreq, hcase⟩
  · refine ⟨Or.inl (by rw [hcalls]; rfl), ?_⟩
    intro userID user hctx' huser
    rw [hctx] at hctx'
    cases hctx'
    rw [he] at huser
    cases huser
  · have h8 : out.calls.filterMap Call.randomLength = [8] := by
      rcases hcase with ⟨e, _, _, _, hcalls⟩ | ⟨hsend, w, hw, hcalls, _, _⟩
      · rw [hcalls]; rfl
      · rw [hcalls]; rfl
    exact ⟨Or.inr h8, fun _ _ _ _ => h8⟩

/-- Witness of C7 (amended) on the sample handler. -/
theorem code_length_is_eight_witness :
    ∃ out, sampleHandler.GeneratePassResetCode sampleRuntime
        (aliceRequest "GET" "/get-password-reset-code") sampleStore = some out ∧
      out.calls.filterMap Call.randomLength = [8] :=
  ⟨_, rfl, (code_length_is_eight sampleHandler sampleRuntime
    (aliceRequest "GET" "/get-password-reset-code") sampleStore _ rfl).2 "u1" alice rfl rfl⟩

/-- C7 as stated fails: with a configured verification-code length of 6 the
handler still asks `utils.GenerateRandomString` for 8 characters. -/
theorem code_length_not_from_configuration :
    (sampleHandler.GeneratePassResetCode sampleRuntime
        (aliceRequest "GET" "/get-password-reset-code") sampleStore).map
      (fun out => out.calls.filterMap Call.randomLength) = some [8] ∧
    sampleHandler.configs.VerificationCodeLength = 6 ∧
    ¬ (∀ n ∈ [8], n = sampleHandler.configs.VerificationCodeLength) := by
  refine ⟨rfl, rfl, ?_⟩
  decide

/-- C6 as stated fails: the request of `alice` carries a context with a
deadline, and both store-touching calls of `GeneratePassResetCode` receive the
background context instead. -/
theorem store_calls_ignore_request_context :
    (sampleHandler.GeneratePassResetCode sampleRuntime
        (aliceRequest "GET" "/get-password-reset-code") sampleStore).map
      (fun out => out.calls.filterMap Call.storeCtx)
      = some [Context.Background, Context.Background] ∧
    (aliceRequest "GET" "/get-password-reset-code").ctx ≠ Context.Background ∧
    (aliceRequest "GET" "/get-password-reset-code").ctx.Deadline = some 5000 ∧
    Context.Background.Deadline = none := by
  refine ⟨rfl, ?_, rfl, rfl⟩
  decide

/-- C6 (amended). Every store-touching call made by the handlers of `get.go`
is passed `context.Background()`, whatever the context of the request is: the
context argument has no deadline and no cancellation signal, and it equals the
context of the request only when that is the background context itself, which
it never is in `GeneratePassResetCode`. -/
theorem store_calls_use_background {μ σ τ : Type} (ah : AuthHandler μ σ)
    (cat : CategoryHandler τ) (rt : Runtime) (r : Request) (s : σ) (t : τ) :
    (∀ out, ah.GeneratePassResetCode rt r s = some out →
      (∀ c ∈ out.calls, ∀ ctx, c.storeCtx = some ctx → ctx = .Background ∧ ctx ≠ r.ctx) ∧
      ∃ userID, Call.GetUserByID .Background userID ∈ out.calls) ∧
    ((cat.GetCategories r t : Option (Outcome μ τ)).map Outcome.calls
      = some [.GetCategories .Background]) ∧
    ((cat.GetCategoryById r t : Option (Outcome μ τ)).map Outcome.calls
      = some [.GetCategoryByID .Background (r.Var "id")]) ∧
    ((cat.GetCategoryByCode r t : Option (Outcome μ τ)).map Outcome.calls
      = some [.GetCategoryByCode .Background (r.Var "code")]) ∧
    Context.Background.Deadline = none ∧ Context.Background.cancellable = false := by
  refine ⟨?_, ?_, ?_, ?_, rfl, rfl⟩
  · intro out hrun
    obtain ⟨uid, hctx, hcase⟩ := GeneratePassResetCode_inv ah rt r s out hrun
    have hne : Context.Background ≠ r.ctx := by
      intro h
      rw [← h] at hctx
      cases hctx
    have hall : ∀ c ∈ out.calls, ∀ ctx, c.storeCtx = some ctx → ctx = .Background := by
      rcases hcase with ⟨e, _, _, _, hcalls⟩ | ⟨user, huser, data, hdata, req, hreq, hcase⟩
      · rw [hcalls]
        simp [Call.storeCtx]
      · rcases hcase with ⟨e, _, _, _, hcalls⟩ | ⟨hsend, w, hw, hcalls, _, _⟩
        · rw [hcalls]
          simp [Call.storeCtx]
        · rw [hcalls]
          simp [Call.storeCtx]
    refine ⟨fun c hc ctx h => ⟨hall c hc ctx h, ?_⟩, uid, ?_⟩
    · rw [hall c hc ctx h]
      exact hne
    · rcases hcase with ⟨e, _, _, _, hcalls⟩ | ⟨user, huser, data, hdata, req, hreq, hcase⟩
      · rw [hcalls]; simp
      · rcases hcase with ⟨e, _, _, _, hcalls⟩ | ⟨hsend, w, hw, hcalls, _, _⟩
        · rw [hcalls]; simp
        · rw [hcalls]; simp
  · unfold CategoryHandler.GetCategories
    split <;> rfl
  · unfold CategoryHandler.GetCategoryById
    dsimp only
    split <;> rfl
  · unfold CategoryHandler.GetCategoryByCode
    dsimp only
    split <;> rfl

/-- Witness of C6 (amended) on the sample handlers. -/
theorem store_calls_use_background_witness :
    ∃ out, sampleHandler.GeneratePassResetCode sampleRuntime
        (aliceRequest "GET" "/get-password-reset-code") sampleStore = some out ∧
      (∀ c ∈ out.calls, ∀ ctx, c.storeCtx = some ctx →
        ctx = .Background ∧ ctx ≠ (aliceRequest "GET" "/get-password-reset-code").ctx) ∧
      ∃ userID, Call.GetUserByID .Background userID ∈ out.calls :=
  ⟨_, rfl, (store_calls_use_background sampleHandler sampleCategoryHandler sampleRuntime
    (aliceRequest "GET" "/get-password-reset-code") sampleStore sampleTable).1 _ rfl⟩

/-- The loop of `GetCategories` appends the converted elements in order. -/
theorem foldl_appendCategory (L : List Category) (acc : List CategoryUpdate) :
    L.foldl appendCategory (.of acc)
      = .of (acc ++ L.map (fun c => ⟨c.ID, c.Name, c.Code⟩)) := by
  induction L generalizing acc with
  | nil => simp
  | cons c rest ih =>
    rw [List.foldl_cons]
    show List.foldl appendCategory (.of (acc ++ [⟨c.ID, c.Name, c.Code⟩])) rest = _
    rw [ih]
    simp

/-- C9. `GetCategories`: for a list `L` returned without error by the
repository the answer is 200 and `Data` is an allocated list of the length of
`L` whose `i`-th element carries `ID`, `Name` and `Code` of `L[i]`; for an empty
or nil `L` it is the empty list, never nil. -/
theorem GetCategories_lists_all {μ σ : Type} (cat : CategoryHandler σ) (r : Request) (s : σ)
    (L : Slice Category) (hL : cat.repo.GetCategories .Background s = .ok L) :
    ∃ (out : Outcome μ σ) (D : List CategoryUpdate), cat.GetCategories r s = some out ∧
      out.resp.status = 200 ∧ out.resp.body.Status = true ∧
      out.resp.body.Data = .CategoryList (.of D) ∧
      D.length = L.len ∧
      (∀ (i : Nat) (c : Category), L.toList[i]? = some c →
        ∃ d : CategoryUpdate, D[i]? = some d ∧ d.Id = c.ID ∧ d.Name = c.Name ∧ d.Code = c.Code) ∧
      (L = .nil ∨ L = .of [] → D = []) ∧
      out.resp.body.Data ≠ .CategoryList .nil ∧ out.resp.body.Data ≠ .null := by
  have hrun : (cat.GetCategories r s : Option (Outcome μ σ)) = some
      { resp := ⟨jsonHeader, StatusOK, ⟨true, "Success",
          .CategoryList (.of (L.toList.map (fun c => ⟨c.ID, c.Name, c.Code⟩)))⟩⟩
        calls := [.GetCategories .Background]
        log := []
        store := s } := by
    simp only [CategoryHandler.GetCategories, hL]
    rw [foldl_appendCategory]
    rfl
  refine ⟨_, L.toList.map (fun c => ⟨c.ID, c.Name, c.Code⟩), hrun, ?_⟩
  · refine ⟨rfl, rfl, rfl, by simp [Slice.len], ?_, ?_, by simp, by simp⟩
    · intro i c hc
      refine ⟨⟨c.ID, c.Name, c.Code⟩, ?_, rfl, rfl, rfl⟩
      rw [List.getElem?_map, hc]
      rfl
    · intro h
      rcases h with h | h <;> subst h <;> rfl

/-- Witness of C9 on the category table: two rows are listed in order, and an
empty table, for which the repository returns a nil slice, gives the empty
list. -/
theorem GetCategories_lists_all_witness :
    (tableCategoryRepo.GetCategories .Background sampleTable = .ok (.of sampleTable) ∧
      ∃ (out : Outcome Mail CategoryTable) (D : List CategoryUpdate),
        sampleCategoryHandler.GetCategories (aliceRequest "GET" "/category") sampleTable
          = some out ∧
        out.resp.status = 200 ∧ out.resp.body.Status = true ∧
        out.resp.body.Data = .CategoryList (.of D) ∧
        D.length = (Slice.of sampleTable).len ∧
        (∀ (i : Nat) (c : Category), (Slice.of sampleTable).toList[i]? = some c →
          ∃ d : CategoryUpdate, D[i]? = some d ∧ d.Id = c.ID ∧ d.Name = c.Name ∧ d.Code = c.Code) ∧
        (Slice.of sampleTable = .nil ∨ Slice.of sampleTable = .of [] → D = []) ∧
        out.resp.body.Data ≠ .CategoryList .nil ∧ out.resp.body.Data ≠ .null) ∧
    (tableCategoryRepo.GetCategories .Background [] = .ok .nil ∧
      ∃ (out : Outcome Mail CategoryTable) (D : List CategoryUpdate),
        sampleCategoryHandler.GetCategories (aliceRequest "GET" "/category") [] = some out ∧
        out.resp.status = 200 ∧ out.resp.body.Status = true ∧
        out.resp.body.Data = .CategoryList (.of D) ∧
        D.length = (Slice.nil : Slice Category).len ∧
        (∀ (i : Nat) (c : Category), (Slice.nil : Slice Category).toList[i]? = some c →
          ∃ d : CategoryUpdate, D[i]? = some d ∧ d.Id = c.ID ∧ d.Name = c.Name ∧ d.Code = c.Code) ∧
        ((Slice.nil : Slice Category) = .nil ∨ (Slice.nil : Slice Category) = .of [] →
          D = []) ∧
        out.resp.body.Data ≠ .CategoryList .nil ∧ out.resp.body.Data ≠ .null) :=
  ⟨⟨rfl, GetCategories_lists_all sampleCategoryHandler (aliceRequest "GET" "/category")
      sampleTable (.of sampleTable) rfl⟩,
   ⟨rfl, GetCategories_lists_all sampleCategoryHandler (aliceRequest "GET" "/category")
      [] .nil rfl⟩⟩

/-- The update statement on the category table keeps the `id` and the
`createdat` of every row and rewrites the rows of the given `id`. -/
theorem execCategory_update (ctx : Context) (name code id : String) (updatedat : Time)
    (t : CategoryTable) :
    execCategory ctx updateQuery
        [.text name, .text code, .timestamp updatedat, .text id] t
      = (none, t.map (fun row =>
          if row.ID = id then { row with Name := name, Code := code, UpdatedAt := updatedat }
          else row)) := by
  have hne : updateQuery ≠ createQuery := by decide
  simp [execCategory, hne]

/-- The insert statement on the category table adds the row of its arguments
when the `id` is not taken. -/
theorem execCategory_insert (ctx : Context) (id name code : String) (createdat updatedat : Time)
    (t : CategoryTable) (hfresh : ∀ row ∈ t, row.ID ≠ id) :
    execCategory ctx createQuery
        [.text id, .text name, .text code, .timestamp createdat, .timestamp updatedat] t
      = (none, t ++ [⟨id, name, code, createdat, updatedat⟩]) := by
  have hany : (t.any fun row => row.ID == id) = false := by
    rw [List.any_eq_false]
    intro row hrow
    simpa using hfresh row hrow
  simp [execCategory, hany]

/-- C8. `Create` and `UpdateCategory` change only the bookkeeping fields.
`Create` sets `ID` to the new identifier and `CreatedAt`, `UpdatedAt` to the
clock readings, keeps `Name` and `Code`, and executes the insert statement
with `(ID, Name, Code, CreatedAt, UpdatedAt)` of the struct it leaves; on the
category table that adds exactly this row. `UpdateCategory` sets `UpdatedAt`
only, and executes the update statement with `(Name, Code, UpdatedAt, ID)`; on
the category table that keeps `id` and `createdat` of every row, writes `name`,
`code` and `updatedat` of the rows with that `ID` and leaves the other rows
alone. -/
theorem category_writes_frame {τ : Type} (repo : CategoryRepository τ) (newV4 : String)
    (now₁ now₂ now : Time) (ctx : Context) (c : Category) (d : τ) (t : CategoryTable) :
    ((repo.Create newV4 now₁ now₂ ctx c d).category = ⟨newV4, c.Name, c.Code, now₁, now₂⟩ ∧
      (repo.Create newV4 now₁ now₂ ctx c d).exec.ctx = ctx ∧
      (repo.Create newV4 now₁ now₂ ctx c d).exec.query
        = "insert into category (id, name, code, createdat, updatedat) values ($1, $2, $3, $4, $5)" ∧
      (repo.Create newV4 now₁ now₂ ctx c d).exec.args
        = [.text (repo.Create newV4 now₁ now₂ ctx c d).category.ID,
           .text (repo.Create newV4 now₁ now₂ ctx c d).category.Name,
           .text (repo.Create newV4 now₁ now₂ ctx c d).category.Code,
           .timestamp (repo.Create newV4 now₁ now₂ ctx c d).category.CreatedAt,
           .timestamp (repo.Create newV4 now₁ now₂ ctx c d).category.UpdatedAt] ∧
      ((repo.Create newV4 now₁ now₂ ctx c d).err, (repo.Create newV4 now₁ now₂ ctx c d).db)
        = repo.db.ExecContext ctx (repo.Create newV4 now₁ now₂ ctx c d).exec.query
            (repo.Create newV4 now₁ now₂ ctx c d).exec.args d) ∧
    ((∀ row ∈ t, row.ID ≠ newV4) →
      ((CategoryRepository.mk tableDB).Create newV4 now₁ now₂ ctx c t).err = none ∧
      ((CategoryRepository.mk tableDB).Create newV4 now₁ now₂ ctx c t).db
        = t ++ [((CategoryRepository.mk tableDB).Create newV4 now₁ now₂ ctx c t).category]) ∧
    ((repo.UpdateCategory now ctx c d).category = ⟨c.ID, c.Name, c.Code, c.CreatedAt, now⟩ ∧
      (repo.UpdateCategory now ctx c d).exec.ctx = ctx ∧
      (repo.UpdateCategory now ctx c d).exec.query
        = "update category set name = $1,code = $2, updatedat = $3 where id = $4" ∧
      (repo.UpdateCategory now ctx c d).exec.args
        = [.text c.Name, .text c.Code, .timestamp now, .text c.ID] ∧
      ((repo.UpdateCategory now ctx c d).err, (repo.UpdateCategory now ctx c d).db)
        = repo.db.ExecContext ctx (repo.UpdateCategory now ctx c d).exec.query
            (repo.UpdateCategory now ctx c d).exec.args d) ∧
    (((CategoryRepository.mk tableDB).UpdateCategory now ctx c t).err = none ∧
      (((CategoryRepository.mk tableDB).UpdateCategory now ctx c t).db).map Category.ID
        = t.map Category.ID ∧
      (((CategoryRepository.mk tableDB).UpdateCategory now ctx c t).db).map Category.CreatedAt
        = t.map Category.CreatedAt ∧
      (∀ (i : Nat) (row : Category), t[i]? = some row →
        (((CategoryRepository.mk tableDB).UpdateCategory now ctx c t).db)[i]?
          = some (if row.ID = c.ID then ⟨row.ID, c.Name, c.Code, row.CreatedAt, now⟩
              else row))) := by
  refine ⟨⟨rfl, rfl, rfl, rfl, rfl⟩, ?_, ⟨rfl, rfl, rfl, rfl, rfl⟩, ?_⟩
  · intro hfresh
    have h := execCategory_insert ctx newV4 c.Name c.Code now₁ now₂ t hfresh
    simp only [CategoryRepository.Create, tableDB]
    rw [h]
    exact ⟨rfl, rfl⟩
  · have h := execCategory_update ctx c.Name c.Code c.ID now t
    simp only [CategoryRepository.UpdateCategory, tableDB]
    rw [h]
    refine ⟨rfl, ?_, ?_, ?_⟩
    · simp only [List.map_map]
      apply List.map_congr_left
      intro row _
      simp only [Function.comp]
      split <;> simp_all
    · simp only [List.map_map]
      apply List.map_congr_left
      intro row _
      simp only [Function.comp]
      split <;> rfl
    · intro i row hrow
      simp only [List.getElem?_map, hrow, Option.map_some']

/-- Witness of C8 on the sample table: a new category is appended as its own
row, and an update of `c1` rewrites that row only. -/
theorem category_writes_frame_witness :
    (∀ row ∈ sampleTable, row.ID ≠ "c3") ∧
    ((CategoryRepository.mk tableDB).Create "c3" 50 51 aliceCtx ⟨"", "Poetry", "POE", 0, 0⟩
        sampleTable).db = sampleTable ++ [⟨"c3", "Poetry", "POE", 50, 51⟩] ∧
    ((CategoryRepository.mk tableDB).UpdateCategory 60 aliceCtx ⟨"c1", "Novels", "NOV", 0, 0⟩
        sampleTable).db = [⟨"c1", "Novels", "NOV", 10, 60⟩, ⟨"c2", "Science", "SCI", 30, 40⟩] ∧
    ((CategoryRepository.mk tableDB).UpdateCategory 60 aliceCtx ⟨"c1", "Novels", "NOV", 0, 0⟩
        sampleTable).category = ⟨"c1", "Novels", "NOV", 0, 60⟩ :=
  ⟨by decide,
   ((category_writes_frame (CategoryRepository.mk tableDB) "c3" 50 51 60 aliceCtx
      ⟨"", "Poetry", "POE", 0, 0⟩ sampleTable sampleTable).2.1 (by decide)).2,
   by decide,
   (category_writes_frame (CategoryRepository.mk tableDB) "c3" 50 51 60 aliceCtx
      ⟨"c1", "Novels", "NOV", 0, 0⟩ sampleTable sampleTable).2.2.1.1⟩

/-- A top-level route whose target does not take the path matches no
request with that path. -/
theorem TopRoute.Match_of_inner_none (t : TopRoute) (method path : String)
    (h : t.inner path = none) : t.Match method path = none := by
  unfold TopRoute.Match
  split
  · exact h
  · rfl

/-- A top-level route without a `Methods` matcher matches on the path alone. -/
theorem TopRoute.Match_of_no_methods (t : TopRoute) (method path : String)
    (hm : t.methods = none) (hp : t.pathOk path = true) : t.Match method path = t.inner path := by
  unfold TopRoute.Match TopRoute.methodOk
  rw [hm, hp]
  rfl

/-- A match of a top-level route leads to one of its handlers, wrapped in its
middlewares. -/
theorem TopRoute.Match_sound (t : TopRoute) (method path : String) (h : Handler)
    (mws : List Middleware) (hmatch : t.Match method path = some (h, mws)) :
    h ∈ t.handlers ∧ mws = t.middlewares := by
  unfold TopRoute.Match at hmatch
  split at hmatch
  · unfold TopRoute.inner at hmatch
    unfold TopRoute.handlers TopRoute.middlewares
    split at hmatch
    · rename_i h0 htarget
      cases hmatch
      exact ⟨List.mem_singleton.mpr rfl, rfl⟩
    · rename_i routes mws0 htarget
      split at hmatch
      · rename_i rt hfind
        cases hmatch
        exact ⟨List.mem_map.mpr ⟨rt, List.mem_of_find?_eq_some hfind, rfl⟩, rfl⟩
      · cases hmatch
  · cases hmatch

/-- First-match dispatch leads to a handler of a route of the table, wrapped
in the middlewares of that route. -/
theorem dispatch_sound (table : List TopRoute) (method path : String) (h : Handler)
    (mws : List Middleware) (hd : dispatch table method path = some (h, mws)) :
    ∃ t ∈ table, h ∈ t.handlers ∧ mws = t.middlewares := by
  unfold dispatch at hd
  obtain ⟨t, ht, hmatch⟩ := List.exists_of_findSome?_eq_some hd
  exact ⟨t, ht, TopRoute.Match_sound t method path h mws hmatch⟩

/-- C4. In the route table of `main`, `MiddlewareValidateRefreshToken` is
attached to the `/refresh-token` subrouter and to no other route, that
subrouter is the only route leading to `RefreshToken`, and under first-match
dispatch every request with path `/refresh-token`, whatever its method,
reaches `RefreshToken` through `MiddlewareValidateRefreshToken` alone, hence
not through `MiddlewareValidateAccessToken`. -/
theorem refresh_token_route :
    (∀ t ∈ routeTable, Middleware.MiddlewareValidateRefreshToken ∈ t.middlewares ↔
      t.pathPfx = some "/refresh-token") ∧
    (∀ t ∈ routeTable, Handler.RefreshToken ∈ t.handlers ↔
      t.pathPfx = some "/refresh-token") ∧
    (∀ method : String, dispatch routeTable method "/refresh-token"
      = some (.RefreshToken, [.MiddlewareValidateRefreshToken])) ∧
    dispatch routeTable MethodGet "/refresh-token"
      = some (.RefreshToken, [.MiddlewareValidateRefreshToken]) ∧
    Middleware.MiddlewareValidateAccessToken ∉ [Middleware.MiddlewareValidateRefreshToken] := by
  have hall : ∀ method : String, dispatch routeTable method "/refresh-token"
      = some (.RefreshToken, [.MiddlewareValidateRefreshToken]) := by
    intro method
    unfold dispatch routeTable
    rw [List.findSome?_cons, TopRoute.Match_of_inner_none _ _ _ (by decide)]
    rw [List.findSome?_cons, TopRoute.Match_of_inner_none _ _ _ (by decide)]
    rw [List.findSome?_cons, TopRoute.Match_of_inner_none _ _ _ (by decide)]
    rw [List.findSome?_cons, TopRoute.Match_of_no_methods _ _ _ rfl (by decide)]
    rfl
  exact ⟨by decide, by decide, hall, hall MethodGet, by decide⟩

/-- C5. In the route table of `main`, every route that leads to one of the
handlers `Greet`, `GeneratePassResetCode`, `CreateCategory`, `GetCategories`,
`GetCategoryById`, `GetCategoryByCode`, `UpdateCategory`, `UpdateUsername`,
`ResetPassword` is a subrouter using `MiddlewareValidateAccessToken`; so under
first-match dispatch a request that reaches one of them has that middleware
run before it; and each of these handlers is reached by some request. -/
theorem protected_routes_use_access_token :
    (∀ t ∈ routeTable, ∀ h ∈ t.handlers, h ∈ protectedHandlers →
      Middleware.MiddlewareValidateAccessToken ∈ t.middlewares) ∧
    (∀ (method path : String) (h : Handler) (mws : List Middleware),
      dispatch routeTable method path = some (h, mws) → h ∈ protectedHandlers →
      Middleware.MiddlewareValidateAccessToken ∈ mws) ∧
    (∀ h ∈ protectedHandlers, h ∈ routeTable.flatMap TopRoute.handlers) ∧
    dispatch routeTable "GET" "/greet" = some (.Greet, [.MiddlewareValidateAccessToken]) ∧
    dispatch routeTable "GET" "/get-password-reset-code"
      = some (.GeneratePassResetCode, [.MiddlewareValidateAccessToken]) := by
  have htable : ∀ t ∈ routeTable, ∀ h ∈ t.handlers, h ∈ protectedHandlers →
      Middleware.MiddlewareValidateAccessToken ∈ t.middlewares := by decide
  refine ⟨htable, ?_, by decide, by decide, by decide⟩
  intro method path h mws hd hprot
  obtain ⟨t, ht, hh, hmws⟩ := dispatch_sound routeTable method path h mws hd
  rw [hmws]
  exact htable t ht h hh hprot

/-- Witness of C5: `PUT /category` reaches `UpdateCategory` behind the
access-token middleware. -/
theorem protected_routes_use_access_token_witness :
    dispatch routeTable "PUT" "/category"
      = some (.UpdateCategory, [.MiddlewareValidateAccessToken]) ∧
    Handler.UpdateCategory ∈ protectedHandlers ∧
    Middleware.MiddlewareValidateAccessToken ∈ [Middleware.MiddlewareValidateAccessToken] :=
  ⟨by decide, by decide,
   protected_routes_use_access_token.2.1 "PUT" "/category" .UpdateCategory
     [.MiddlewareValidateAccessToken] (by decide) (by decide)⟩

/-- Witness of C4: a `GET` and a `POST` request for `/refresh-token` both reach
`RefreshToken` behind the refresh-token middleware. -/
theorem refresh_token_route_witness :
    dispatch routeTable "GET" "/refresh-token"
      = some (.RefreshToken, [.MiddlewareValidateRefreshToken]) ∧
    dispatch routeTable "POST" "/refresh-token"
      = some (.RefreshToken, [.MiddlewareValidateRefreshToken]) :=
  ⟨refresh_token_route.2.2.1 "GET", refresh_token_route.2.2.1 "POST"⟩

end Bookapi
